import Mathlib

/-!
Verification of the results-download pipeline in
`2025-quiron-carrera-empresas/download_clasificaciones.py`.

The Python functions are shallowly embedded as executable Lean
definitions.  HTML documents are modelled after the queries the code
performs on them (the first `<table>`'s rows, the `tbody.equipo` team
blocks, and the anchors' `href` strings); every cell is the already
extracted text of the corresponding node.  Python `float` arithmetic is
idealized as exact rational arithmetic (`ℚ`); Python `int(str)` and
`float(str)` are modelled on their ASCII core (optional sign, decimal
digits, optional fractional point) and `str.isdigit` on ASCII digit
strings, which covers every behaviour the specification speaks about.
String manipulation is carried out on explicit character lists so that
every definition reduces inside the kernel.
-/

/-- Numeric value of a list of ASCII decimal digits, most significant first. -/
def natOfDigits (cs : List Char) : ℕ :=
  cs.foldl (fun a c => a * 10 + (c.toNat - 48)) 0

/-- The whitespace class of Python `str.strip` / regex `\s` (ASCII part). -/
def isPyWs (c : Char) : Bool :=
  c = ' ' || c = '\t' || c = '\n' || c = '\r' || c = '\x0b' || c = '\x0c'

/-- Python `str.strip()`: drop leading and trailing whitespace. -/
def pyStrip (cs : List Char) : List Char :=
  ((cs.dropWhile isPyWs).reverse.dropWhile isPyWs).reverse

/-- Python `str.split(sep)` for a one-character separator: always returns a
non-empty list of groups. -/
def splitOnChar (sep : Char) : List Char → List (List Char)
  | [] => [[]]
  | c :: rest =>
    match splitOnChar sep rest with
    | [] => [[]]
    | grp :: grps => if c = sep then [] :: grp :: grps else (c :: grp) :: grps

/-- Python `str.isdigit` restricted to ASCII: non-empty and all digits. -/
def pyIsDigit (s : String) : Bool :=
  !s.isEmpty && s.toList.all Char.isDigit

/-- `int(puesto) if puesto.isdigit() else None` — the rank-token conversion
shared by both parsers (lines 60 and 100–101 of the source). -/
def rankToken (s : String) : Option ℤ :=
  if pyIsDigit s then some (natOfDigits s.toList : ℤ) else none

/-- Python `int(str)` on its ASCII core: optional sign followed by at least
one decimal digit. -/
def pyInt? (cs : List Char) : Option ℤ :=
  match cs with
  | [] => none
  | '-' :: rest =>
    if !rest.isEmpty && rest.all Char.isDigit then some (-(natOfDigits rest : ℤ)) else none
  | '+' :: rest =>
    if !rest.isEmpty && rest.all Char.isDigit then some (natOfDigits rest : ℤ) else none
  | l =>
    if l.all Char.isDigit then some (natOfDigits l : ℤ) else none

/-- Unsigned part of Python `float(str)`: decimal digits with an optional
point, at least one digit overall. -/
def pyFloatCore (cs : List Char) : Option ℚ :=
  let intPart := cs.takeWhile Char.isDigit
  match cs.drop intPart.length with
  | [] => if intPart.isEmpty then none else some (natOfDigits intPart : ℚ)
  | '.' :: frac =>
    if frac.all Char.isDigit && (!intPart.isEmpty || !frac.isEmpty) then
      some ((natOfDigits intPart : ℚ) + (natOfDigits frac : ℚ) / (10 : ℚ) ^ frac.length)
    else none
  | _ => none

/-- Python `float(str)` on its ASCII core (fractional values kept exactly,
as rationals). -/
def pyFloat? (cs : List Char) : Option ℚ :=
  match cs with
  | '-' :: rest => (pyFloatCore rest).map (fun q => -q)
  | '+' :: rest => pyFloatCore rest
  | l => pyFloatCore l

/-- `tiempo_a_segundos` (source lines 20–35): convert `"H:MM:SS"` /
`"MM:SS"` time strings to seconds; a caught `ValueError` becomes `none`. -/
def tiempo_a_segundos (tiempo : String) : Option ℚ :=
  if tiempo = "" ∨ tiempo = "-" then none
  else
    match splitOnChar ':' (pyStrip tiempo.toList) with
    | [h, m, s] =>
      match pyInt? h, pyInt? m, pyFloat? s with
      | some hv, some mv, some sv => some ((hv : ℚ) * 3600 + (mv : ℚ) * 60 + sv)
      | _, _, _ => none
    | [m, s] =>
      match pyInt? m, pyFloat? s with
      | some mv, some sv => some ((mv : ℚ) * 60 + sv)
      | _, _ => none
    | x :: _ => pyFloat? x
    | [] => none

example : tiempo_a_segundos "-" = none := by decide
example : tiempo_a_segundos "" = none := by decide
example : tiempo_a_segundos "abc" = none := by decide

/-! ## Document model

BeautifulSoup queries are embedded as projections of an abstract parsed
document: `table` is the row list of the first `<table>` (each row, the
text of its `<td>` cells), `teamBlocks` the `tbody.equipo` elements, and
`anchorHrefs` the `href` strings of the `<a>` elements. -/

/-- One `<tbody class="equipo">` element: its `data-equipo` attribute (if
present) and the cell texts of its `<tr>` rows. -/
structure TeamBlock where
  dataEquipo : Option String
  rows : List (List String)
deriving DecidableEq

/-- An already-fetched, parsed HTML body, seen through the queries the
source performs on it. -/
structure Doc where
  table : Option (List (List String))
  teamBlocks : List TeamBlock
  anchorHrefs : List String
deriving DecidableEq

/-- The normalized output row (source lines 58–72 and 126–163). -/
structure ResultRecord where
  puesto : Option ℤ
  nombre : String
  empresa : String
  tiempo : String
  tiempo_segundos : Option ℚ
  categoria : String
  distancia : String
  sexo : String
  num_corredores : ℕ
  nombre_equipo : Option String
  tiempo_acumulado : Option String
deriving DecidableEq

/-- Body of the row loop of `parse_individual` (source lines 48–72): a row
with fewer than 4 cells is skipped, otherwise cells 0–3 become a record. -/
def mkIndividualRow (categoria distancia sexo : String) (cells : List String) :
    Option ResultRecord :=
  match cells with
  | c0 :: c1 :: c2 :: c3 :: _ =>
    some { puesto := rankToken c0, nombre := c1, empresa := c2, tiempo := c3,
           tiempo_segundos := tiempo_a_segundos c3, categoria := categoria,
           distancia := distancia, sexo := sexo, num_corredores := 1,
           nombre_equipo := none, tiempo_acumulado := none }
  | _ => none

/-- `parse_individual` (source lines 38–74): no table gives no rows; the
first table row is the header and is skipped. -/
def parse_individual (doc : Doc) (categoria distancia sexo : String) :
    List ResultRecord :=
  match doc.table with
  | none => []
  | some trs => (trs.drop 1).filterMap (mkIndividualRow categoria distancia sexo)

/-! ## Team parser -/

/-- The literal `"Tiempo Acumulado:"` as characters. -/
def markerChars : List Char := "Tiempo Acumulado:".toList

/-- Try to match the regex `Tiempo Acumulado:\s*(\d+)` at the head of `cs`. -/
def taNumAt (cs : List Char) : Option ℕ :=
  if markerChars.isPrefixOf cs then
    let ds := ((cs.drop markerChars.length).dropWhile isPyWs).takeWhile Char.isDigit
    if ds.isEmpty then none else some (natOfDigits ds)
  else none

/-- `re.search(r"Tiempo Acumulado:\s*(\d+)", _)`: first position, scanning
left to right, where the pattern matches. -/
def taSearch : List Char → Option ℕ
  | [] => none
  | c :: rest =>
    match taNumAt (c :: rest) with
    | some n => some n
    | none => taSearch rest

/-- Python's substring test `pat in s`. -/
def containsSub : List Char → List Char → Bool
  | pat, [] => pat.isEmpty
  | pat, c :: rest => pat.isPrefixOf (c :: rest) || containsSub pat rest

/-- Source lines 107–111: the accumulated-time milliseconds extracted from
the team-info cell, `None` when the marker or the number is missing. -/
def tiempoAcumMs (s : String) : Option ℕ :=
  if containsSub markerChars s.toList then taSearch s.toList else none

/-- `f"{h:02d}"`: decimal digits, zero-padded to width 2. -/
def pad2 (n : ℕ) : String :=
  if n < 10 then "0" ++ toString n else toString n

/-- Source lines 116–120: milliseconds to `HH:MM:SS` via float division and
truncating `int()` conversions, floats idealized as rationals. -/
def msToHMS (ms : ℕ) : String :=
  let ts : ℚ := (ms : ℚ) / 1000
  let h : ℕ := ⌊ts / 3600⌋₊
  let m : ℕ := ⌊(ts - 3600 * (⌊ts / 3600⌋₊ : ℚ)) / 60⌋₊
  let s : ℕ := ⌊ts - 60 * (⌊ts / 60⌋₊ : ℚ)⌋₊
  pad2 h ++ ":" ++ pad2 m ++ ":" ++ pad2 s

/-- Source lines 113–120: `tiempo_acumulado` for a block, from its team-info
cell. `if tiempo_acumulado_ms:` is false both for `None` and for `0`. -/
def tiempoAcumOut (teamCell : String) : Option String :=
  match tiempoAcumMs teamCell with
  | some v => if v ≠ 0 then some (msToHMS v) else none
  | none => none

/-- Python `str.upper()` on ASCII text. -/
def pyUpper (s : String) : String :=
  String.mk (s.toList.map Char.toUpper)

/-- The record emitted for the first row of a team block (source lines
126–140): block-level fields plus the first member's name and time. -/
def teamLeadRecord (categoria distancia sexo : String) (num_corredores : ℕ)
    (nombreEquipo : String) (puesto : Option ℤ) (tiempoAcumulado : Option String)
    (c2 c3 : String) : ResultRecord :=
  { puesto := puesto, nombre := c2, empresa := nombreEquipo, tiempo := c3,
    tiempo_segundos := tiempo_a_segundos c3, categoria := categoria,
    distancia := distancia, sexo := sexo, num_corredores := num_corredores,
    nombre_equipo := some nombreEquipo, tiempo_acumulado := tiempoAcumulado }

/-- Body of the member-row loop (source lines 143–163): a row with at least
2 cells yields a record replicating the block-level fields. -/
def teamMemberRow (categoria distancia sexo : String) (num_corredores : ℕ)
    (nombreEquipo : String) (puesto : Option ℤ) (tiempoAcumulado : Option String)
    (tr : List String) : Option ResultRecord :=
  match tr with
  | n :: t :: _ =>
    some { puesto := puesto, nombre := n, empresa := nombreEquipo, tiempo := t,
           tiempo_segundos := tiempo_a_segundos t, categoria := categoria,
           distancia := distancia, sexo := sexo, num_corredores := num_corredores,
           nombre_equipo := some nombreEquipo, tiempo_acumulado := tiempoAcumulado }
  | _ => none

/-- Loop body of `parse_equipos` for one team block (source lines 87–163).
A block whose first row has fewer than 4 cells is skipped whole; the first
row yields the leading record, every later row with at least 2 cells yields
a member record sharing the block-level fields. -/
def parseEquipoBlock (categoria distancia sexo : String) (num_corredores : ℕ)
    (b : TeamBlock) : List ResultRecord :=
  match b.rows with
  | [] => []
  | first :: rest =>
    match first with
    | c0 :: c1 :: c2 :: c3 :: _ =>
      teamLeadRecord categoria distancia sexo num_corredores
          (pyUpper (b.dataEquipo.getD "")) (rankToken c0) (tiempoAcumOut c1) c2 c3 ::
        rest.filterMap (teamMemberRow categoria distancia sexo num_corredores
          (pyUpper (b.dataEquipo.getD "")) (rankToken c0) (tiempoAcumOut c1))
    | _ => []

/-- `parse_equipos` (source lines 77–165). -/
def parse_equipos (doc : Doc) (categoria distancia sexo : String)
    (num_corredores : ℕ) : List ResultRecord :=
  doc.teamBlocks.flatMap (parseEquipoBlock categoria distancia sexo num_corredores)

/-! ## Pagination -/

/-- The literal `"page="` as characters. -/
def pageChars : List Char := "page=".toList

/-- Try to match `page=(\d+)` at the head of `cs`. -/
def pageNumAt (cs : List Char) : Option ℕ :=
  if pageChars.isPrefixOf cs then
    let ds := (cs.drop pageChars.length).takeWhile Char.isDigit
    if ds.isEmpty then none else some (natOfDigits ds)
  else none

/-- `re.search(r"page=(\d+)", href)`. -/
def pageSearch : List Char → Option ℕ
  | [] => none
  | c :: rest =>
    match pageNumAt (c :: rest) with
    | some n => some n
    | none => pageSearch rest

/-- First `page=<n>` number referenced in an `href` string, if any. -/
def extractPage (s : String) : Option ℕ := pageSearch s.toList

/-- `get_max_page` (source lines 168–180): anchors are filtered by the
`page=\d+` pattern, then the running maximum starts at 1. -/
def get_max_page (doc : Doc) : ℕ :=
  let pagination := doc.anchorHrefs.filter (fun h => (extractPage h).isSome)
  pagination.foldl
    (fun acc h =>
      match extractPage h with
      | some p => max acc p
      | none => acc)
    1

example :
    get_max_page { table := none, teamBlocks := [],
                   anchorHrefs := ["x.php?page=2", "x.php?page=7"] } = 7 := by decide
example : tiempoAcumMs "ACME|Tiempo Acumulado: 3958521" = some 3958521 := by decide
example : tiempoAcumMs "ACME" = none := by decide

/-! ## Fetcher

`fetch` (source lines 183–192) performs `session.get(url)` and returns
`response.text()`; it never calls `raise_for_status`, so an HTTP response
of any status is a normal return.  The decorator
`backoff.on_exception(backoff.expo, (aiohttp.ClientError,
asyncio.TimeoutError), max_tries=5, max_time=60)` retries exactly the two
listed exception classes.  The model abstracts the network into an oracle
giving the outcome of each attempt, and the clock (attempt durations plus
the decorator's waits) into `elapsedAt k`, the wall seconds elapsed after
`k` attempts. -/

/-- Outcome of one `session.get` + `response.text()` call. -/
inductive NetOutcome
  | timeout
  | connError
  | resp (status : ℕ) (body : String)
deriving DecidableEq

/-- The attempt raised one of the two exception classes listed in the
decorator. -/
def NetOutcome.isExc : NetOutcome → Bool
  | .resp _ _ => false
  | _ => true

/-- Final outcome of the decorated `fetch`: a body, or the re-raised last
exception after give-up. -/
inductive FetchResult
  | ok (body : String)
  | failed (e : NetOutcome)
deriving DecidableEq

/-- The retry loop of `backoff.on_exception(..., max_tries, max_time)`:
`tries` attempts have already been made; an attempt that raises gives up
(re-raising the exception) when it is the `maxTries`-th attempt or the
elapsed wall time has reached `maxTime`.  Returns the result and the total
number of attempts made. -/
def backoffRun (oracle : ℕ → NetOutcome) (elapsedAt : ℕ → ℚ)
    (maxTries : ℕ) (maxTime : ℚ) : ℕ → ℕ → FetchResult × ℕ
  | tries, 0 => (.failed (oracle tries), tries + 1)
  | tries, fuel + 1 =>
    match oracle tries with
    | .resp _ body => (.ok body, tries + 1)
    | e =>
      if tries + 1 = maxTries ∨ maxTime ≤ elapsedAt (tries + 1) then
        (.failed e, tries + 1)
      else
        backoffRun oracle elapsedAt maxTries maxTime (tries + 1) fuel

/-- `fetch` under its decorator: `max_tries=5`, `max_time=60`. -/
def fetchModel (oracle : ℕ → NetOutcome) (elapsedAt : ℕ → ℚ) : FetchResult × ℕ :=
  backoffRun oracle elapsedAt 5 60 0 5

/-! ## Admission gate

`main` builds `asyncio.Semaphore(MAX_CONCURRENT)` (source line 306) and
every fetch in the program runs inside `async with semaphore` (lines 208,
243, 260, 289).  Tasks are modelled by their phase only: pending (not yet
admitted), active (inside the `async with`, fetch in flight), done.  A
transition system over these counters embeds the semaphore discipline:
admission requires a free slot. -/

/-- `MAX_CONCURRENT` (source line 16). -/
def MAX_CONCURRENT : ℕ := 5

/-- Counts of fetch tasks in each phase, plus the semaphore's free slots. -/
structure GateState where
  pending : ℕ
  active : ℕ
  done : ℕ
  avail : ℕ
deriving DecidableEq

/-- The two scheduler events touching the gate: a pending task is admitted
(needs a free slot), or an active task finishes its fetch and releases. -/
inductive GateStep : GateState → GateState → Prop
  | acquire (s : GateState) (hp : 0 < s.pending) (ha : 0 < s.avail) :
      GateStep s ⟨s.pending - 1, s.active + 1, s.done, s.avail - 1⟩
  | release (s : GateState) (h : 0 < s.active) :
      GateStep s ⟨s.pending, s.active - 1, s.done + 1, s.avail + 1⟩

/-- Start of a run: `n` pending fetch tasks, no fetch in flight, all
`MAX_CONCURRENT` slots free. -/
def gateInit (n : ℕ) : GateState :=
  { pending := n, active := 0, done := 0, avail := MAX_CONCURRENT }

/-! ## Spec-side definitions

These follow the specification's words, for comparison against the
definitions above, which follow the source. -/

/-- Spec §4.3: the page indices referenced by a `page=<n>` pattern among
the body's navigation links. -/
def referencedPages (doc : Doc) : List ℕ :=
  doc.anchorHrefs.filterMap extractPage

/-- Spec §4.1: the input shapes for which `parse_duration` is specified —
`"H:MM:SS"`, `"MM:SS"`, a single numeric token, `"-"`, or empty — with
numeric tokens read by the same `int`/`float` conversions the code uses. -/
def specDurationShape (s : String) : Bool :=
  if s = "" ∨ s = "-" then true
  else
    match splitOnChar ':' (pyStrip s.toList) with
    | [a, b, c] => (pyInt? a).isSome && (pyInt? b).isSome && (pyFloat? c).isSome
    | [a, b] => (pyInt? a).isSome && (pyFloat? b).isSome
    | [a] => (pyFloat? a).isSome
    | _ => false

/-! ## C3 — duration parser on other shapes -/

/-- C3 (amended): on every input string not of the specified shapes,
`tiempo_a_segundos` returns `none` — except that a string splitting into
four or more colon-separated parts is read as its first part (`float` of
`parts[0]`), numeric or not; the function is total, so it never raises. -/
theorem claim_C3_other_shapes_amended (s : String)
    (h : specDurationShape s = false) :
    tiempo_a_segundos s =
      if 4 ≤ (splitOnChar ':' (pyStrip s.toList)).length then
        pyFloat? ((splitOnChar ':' (pyStrip s.toList)).headD [])
      else none := by
  by_cases hne : s = "" ∨ s = "-"
  · unfold specDurationShape at h
    rw [if_pos hne] at h
    cases h
  · unfold specDurationShape at h
    unfold tiempo_a_segundos
    rw [if_neg hne] at h ⊢
    rcases hL : splitOnChar ':' (pyStrip s.toList) with
      _ | ⟨a, _ | ⟨b, _ | ⟨c, _ | ⟨d, tl⟩⟩⟩⟩ <;> rw [hL] at h
    · rfl
    · change (pyFloat? a).isSome = false at h
      change pyFloat? a = _
      cases hpa : pyFloat? a with
      | none => simp
      | some v => rw [hpa] at h; simp at h
    · change ((pyInt? a).isSome && (pyFloat? b).isSome) = false at h
      change (match pyInt? a, pyFloat? b with
        | some mv, some sv => some ((mv : ℚ) * 60 + sv)
        | _, _ => none) = _
      cases hpa : pyInt? a <;> cases hpb : pyFloat? b <;> rw [hpa, hpb] at h <;>
        first
        | rfl
        | simp at h
    · change ((pyInt? a).isSome && (pyInt? b).isSome && (pyFloat? c).isSome) = false at h
      change (match pyInt? a, pyInt? b, pyFloat? c with
        | some hv, some mv, some sv => some ((hv : ℚ) * 3600 + (mv : ℚ) * 60 + sv)
        | _, _, _ => none) = _
      cases hpa : pyInt? a <;> cases hpb : pyInt? b <;> cases hpc : pyFloat? c <;>
        rw [hpa, hpb, hpc] at h <;>
        first
        | rfl
        | simp at h
    · have hlen : 4 ≤ (a :: b :: c :: d :: tl).length := by
        simp [List.length_cons]
      rw [if_pos hlen]
      rfl

/-- C3 counterexample: `"1:2:3:4"` is of none of the specified shapes, yet
the code returns 1.0 (seconds) for it instead of an absent value. -/
theorem claim_C3_counterexample :
    specDurationShape "1:2:3:4" = false ∧ tiempo_a_segundos "1:2:3:4" = some 1 := by
  constructor <;> decide

/-- C3 witness: `"abc"` is of no specified shape and maps to `none`. -/
theorem claim_C3_other_shapes_witness : tiempo_a_segundos "abc" = none := by
  have h := claim_C3_other_shapes_amended "abc" (by decide)
  rw [h]
  decide

/-! ## C6 — duration parser on the specified shapes -/

/-- C6: `tiempo_a_segundos` maps a 3-part `"H:MM:SS"` string to
`H*3600 + M*60 + S` and a 2-part `"MM:SS"` string to `M*60 + S`, with the
seconds token read as an exact (lossless) fraction; in particular
`"1:02:03"` gives 3723 and `"5:30"` gives 330, while `"-"` and `""` give
`none`. -/
theorem claim_C6_duration_values :
    (∀ (t : String) (a b c : List Char) (hv mv : ℤ) (sv : ℚ),
        t ≠ "" → t ≠ "-" →
        splitOnChar ':' (pyStrip t.toList) = [a, b, c] →
        pyInt? a = some hv → pyInt? b = some mv → pyFloat? c = some sv →
        tiempo_a_segundos t = some ((hv : ℚ) * 3600 + (mv : ℚ) * 60 + sv))
    ∧ (∀ (t : String) (a b : List Char) (mv : ℤ) (sv : ℚ),
        t ≠ "" → t ≠ "-" →
        splitOnChar ':' (pyStrip t.toList) = [a, b] →
        pyInt? a = some mv → pyFloat? b = some sv →
        tiempo_a_segundos t = some ((mv : ℚ) * 60 + sv))
    ∧ tiempo_a_segundos "1:02:03" = some 3723
    ∧ tiempo_a_segundos "5:30" = some 330
    ∧ tiempo_a_segundos "-" = none
    ∧ tiempo_a_segundos "" = none := by
  have part3 : ∀ (t : String) (a b c : List Char) (hv mv : ℤ) (sv : ℚ),
      t ≠ "" → t ≠ "-" →
      splitOnChar ':' (pyStrip t.toList) = [a, b, c] →
      pyInt? a = some hv → pyInt? b = some mv → pyFloat? c = some sv →
      tiempo_a_segundos t = some ((hv : ℚ) * 3600 + (mv : ℚ) * 60 + sv) := by
    intro t a b c hv mv sv h1 h2 hsplit ha hb hc
    unfold tiempo_a_segundos
    rw [if_neg (by tauto)]
    rw [hsplit]
    simp only [ha, hb, hc]
  have part2 : ∀ (t : String) (a b : List Char) (mv : ℤ) (sv : ℚ),
      t ≠ "" → t ≠ "-" →
      splitOnChar ':' (pyStrip t.toList) = [a, b] →
      pyInt? a = some mv → pyFloat? b = some sv →
      tiempo_a_segundos t = some ((mv : ℚ) * 60 + sv) := by
    intro t a b mv sv h1 h2 hsplit ha hb
    unfold tiempo_a_segundos
    rw [if_neg (by tauto)]
    rw [hsplit]
    simp only [ha, hb]
  refine ⟨part3, part2, ?_, ?_, by decide, by decide⟩
  · have e := part3 "1:02:03" ['1'] ['0', '2'] ['0', '3'] 1 2 3
      (by decide) (by decide) (by decide) (by decide) (by decide) (by decide)
    rw [e]
    norm_num
  · have e := part2 "5:30" ['5'] ['3', '0'] 5 30
      (by decide) (by decide) (by decide) (by decide) (by decide)
    rw [e]
    norm_num

/-- C6 witness: a fractional seconds token is preserved exactly —
`"1:02:03.5"` is 3723½ seconds. -/
theorem claim_C6_duration_values_witness :
    tiempo_a_segundos "1:02:03.5" = some (7447 / 2) := by
  have e := claim_C6_duration_values.1 "1:02:03.5" ['1'] ['0', '2'] ['0', '3', '.', '5']
    1 2 ((3 : ℚ) + (5 : ℚ) / (10 : ℚ) ^ (1 : ℕ))
    (by decide) (by decide) (by decide) (by decide) (by decide) rfl
  rw [e]
  norm_num

/-! ## C7 — pagination discovery -/

lemma get_max_page_go (l : List String) (acc : ℕ) :
    (l.filter (fun h => (extractPage h).isSome)).foldl
        (fun acc h =>
          match extractPage h with
          | some p => max acc p
          | none => acc)
        acc =
      (l.filterMap extractPage).foldl max acc := by
  induction l generalizing acc with
  | nil => rfl
  | cons x xs ih =>
    cases h : extractPage x with
    | none => simp [List.filter_cons, List.filterMap_cons, h, ih]
    | some p => simp [List.filter_cons, List.filterMap_cons, h, ih]

lemma get_max_page_foldl (doc : Doc) :
    get_max_page doc = (referencedPages doc).foldl max 1 :=
  get_max_page_go doc.anchorHrefs 1

lemma foldl_max_eq_max_foldr (l : List ℕ) (a : ℕ) :
    l.foldl max a = max a (l.foldr max 0) := by
  induction l generalizing a with
  | nil => simp
  | cons x xs ih =>
    simp only [List.foldl_cons, List.foldr_cons, ih (max a x)]
    omega

/-- C7 (amended): `get_max_page` returns the maximum of 1 and the largest
page index referenced by a `page=<n>` pattern among the body's links; in
particular it returns 1 when no such link exists, but also when the only
referenced indices are 0. -/
theorem claim_C7_max_page_amended (doc : Doc) :
    get_max_page doc = max 1 ((referencedPages doc).foldr max 0) := by
  rw [get_max_page_foldl, foldl_max_eq_max_foldr]

/-- C7 counterexample: a body with a single navigation link referencing
`page=0`. The maximum referenced page index is 0, but `get_max_page`
returns 1, so it is not always the maximum referenced index. -/
theorem claim_C7_counterexample :
    referencedPages { table := none, teamBlocks := [], anchorHrefs := ["x.php?page=0"] }
        = [0] ∧
      get_max_page { table := none, teamBlocks := [], anchorHrefs := ["x.php?page=0"] }
        = 1 := by
  constructor <;> decide

/-! ## C8 — admission gate -/

lemma gateStep_active_avail {s t : GateState} (h : GateStep s t) :
    t.active + t.avail = s.active + s.avail := by
  cases h with
  | acquire hp ha => simp only; omega
  | release h1 => simp only; omega

/-- C8: starting from any number of pending fetch tasks with the run-scoped
gate of `MAX_CONCURRENT = 5` slots, in every reachable state at most 5
fetches are concurrently in flight. -/
theorem claim_C8_gate_bound (n : ℕ) (s : GateState)
    (h : Relation.ReflTransGen GateStep (gateInit n) s) :
    s.active ≤ MAX_CONCURRENT := by
  have key : s.active + s.avail = MAX_CONCURRENT := by
    induction h with
    | refl => rfl
    | tail h1 h2 ih => rw [gateStep_active_avail h2, ih]
  omega

/-- C8 witness: the 20-pending-task initial state itself. -/
theorem claim_C8_gate_bound_witness : (gateInit 20).active ≤ MAX_CONCURRENT :=
  claim_C8_gate_bound 20 (gateInit 20) Relation.ReflTransGen.refl

/-! ## C9 — individual parser with no table -/

/-- C9: when no table element is located in the body, the individual parser
returns the empty record list (and, being a total function, raises no
error). -/
theorem claim_C9_no_table (doc : Doc) (categoria distancia sexo : String)
    (h : doc.table = none) :
    parse_individual doc categoria distancia sexo = [] := by
  unfold parse_individual
  rw [h]

/-- C9 witness: a concrete body with no table. -/
theorem claim_C9_no_table_witness :
    parse_individual { table := none, teamBlocks := [], anchorHrefs := [] }
      "absoluta" "5K" "M" = [] :=
  claim_C9_no_table _ "absoluta" "5K" "M" rfl

/-! ## C10 — team block with a short first row -/

/-- C10: a team block whose first row has fewer than 4 cells is skipped as
a whole: zero records are emitted for it, member rows included, whatever
those rows contain. -/
theorem claim_C10_short_first_row (categoria distancia sexo : String)
    (num : ℕ) (b : TeamBlock) (first : List String) (rest : List (List String))
    (hrows : b.rows = first :: rest) (hlen : first.length < 4) :
    parseEquipoBlock categoria distancia sexo num b = [] := by
  unfold parseEquipoBlock
  rw [hrows]
  rcases first with _ | ⟨a0, _ | ⟨a1, _ | ⟨a2, _ | ⟨a3, tl⟩⟩⟩⟩
  · rfl
  · rfl
  · rfl
  · rfl
  · exfalso
    simp only [List.length_cons] at hlen
    omega

/-- C10 witness: a block whose first row has 3 cells and whose second row
has 2 cells still produces nothing. -/
theorem claim_C10_short_first_row_witness :
    parseEquipoBlock "equipos_2" "5K" "M" 2
      { dataEquipo := some "acme", rows := [["1", "ACME", "Ana"], ["Luis", "20:00"]] }
      = [] :=
  claim_C10_short_first_row "equipos_2" "5K" "M" 2 _ _ _ rfl (by decide)

/-! ## Team-block structure lemmas (shared) -/

lemma parseEquipoBlock_eq (c d s : String) (num : ℕ) (b : TeamBlock)
    (c0 c1 c2 c3 : String) (tl : List String) (rest : List (List String))
    (hrows : b.rows = (c0 :: c1 :: c2 :: c3 :: tl) :: rest) :
    parseEquipoBlock c d s num b =
      teamLeadRecord c d s num (pyUpper (b.dataEquipo.getD "")) (rankToken c0)
          (tiempoAcumOut c1) c2 c3 ::
        rest.filterMap (teamMemberRow c d s num (pyUpper (b.dataEquipo.getD ""))
          (rankToken c0) (tiempoAcumOut c1)) := by
  unfold parseEquipoBlock
  rw [hrows]

lemma mem_parseEquipoBlock_fields (c d s : String) (num : ℕ) (b : TeamBlock)
    (c0 c1 c2 c3 : String) (tl : List String) (rest : List (List String))
    (hrows : b.rows = (c0 :: c1 :: c2 :: c3 :: tl) :: rest)
    (rec : ResultRecord) (hrec : rec ∈ parseEquipoBlock c d s num b) :
    rec.puesto = rankToken c0 ∧ rec.tiempo_acumulado = tiempoAcumOut c1 ∧
      rec.nombre_equipo = some (pyUpper (b.dataEquipo.getD "")) ∧
      rec.num_corredores = num := by
  rw [parseEquipoBlock_eq c d s num b c0 c1 c2 c3 tl rest hrows] at hrec
  rcases List.mem_cons.mp hrec with rfl | hmem
  · exact ⟨rfl, rfl, rfl, rfl⟩
  · rcases List.mem_filterMap.mp hmem with ⟨tr, htr, he⟩
    rcases tr with _ | ⟨n, _ | ⟨t, tl2⟩⟩
    · exact absurd he (by simp [teamMemberRow])
    · exact absurd he (by simp [teamMemberRow])
    · simp only [teamMemberRow, Option.some.injEq] at he
      subst he
      exact ⟨rfl, rfl, rfl, rfl⟩

lemma filterMap_teamMemberRow_length (c d s : String) (num : ℕ) (ne : String)
    (p : Option ℤ) (ta : Option String) (rest : List (List String))
    (hall : ∀ r ∈ rest, 2 ≤ r.length) :
    (rest.filterMap (teamMemberRow c d s num ne p ta)).length = rest.length := by
  induction rest with
  | nil => rfl
  | cons r rs ih =>
    have h2 := hall r (List.mem_cons_self r rs)
    rcases r with _ | ⟨n, _ | ⟨t, tl2⟩⟩
    · simp at h2
    · simp at h2
    · simp only [List.filterMap_cons, teamMemberRow, List.length_cons]
      rw [ih (fun r hr => hall r (List.mem_cons_of_mem _ hr))]

/-! ## C2 — the puesto field -/

/-- The rank tokens a document offers to the two parsers: the first cell of
every individual data row with at least 4 cells, and the first cell of the
first row of every team block whose first row has at least 4 cells. -/
def rankTokensIndividual : Option (List (List String)) → List String
  | none => []
  | some trs =>
    (trs.drop 1).filterMap (fun cells =>
      if 4 ≤ cells.length then cells.head? else none)

/-- The rank cell of one team block, when the block produces records. -/
def blockRankCell (b : TeamBlock) : Option String :=
  match b.rows with
  | first :: _ => if 4 ≤ first.length then first.head? else none
  | [] => none

/-- All source rank tokens of a document. -/
def rankTokens (doc : Doc) : List String :=
  rankTokensIndividual doc.table ++ doc.teamBlocks.filterMap blockRankCell

/-- C2 (amended): every record produced by either parser takes its `puesto`
from a source rank token via `rankToken`; `puesto` is absent exactly when
that token is not an all-digits string, and whenever present it is a
nonnegative integer (zero included, for the token `"0"`). -/
theorem claim_C2_puesto_amended (doc : Doc) (c d s : String) (num : ℕ)
    (rec : ResultRecord)
    (h : rec ∈ parse_individual doc c d s ∨ rec ∈ parse_equipos doc c d s num) :
    ((rankTokens doc).any (fun tok =>
        rec.puesto == rankToken tok && (rec.puesto.isNone == !pyIsDigit tok)) = true)
      ∧ 0 ≤ rec.puesto.getD 0 := by
  have tokProp : ∀ tok : String,
      (rankToken tok == rankToken tok
        && ((rankToken tok).isNone == !pyIsDigit tok)) = true := by
    intro tok
    cases hd : pyIsDigit tok <;> simp [rankToken, hd]
  have tokNonneg : ∀ tok : String, 0 ≤ (rankToken tok).getD 0 := by
    intro tok
    cases hd : pyIsDigit tok <;> simp [rankToken, hd]
  rcases h with h | h
  · unfold parse_individual at h
    cases ht : doc.table with
    | none => rw [ht] at h; cases h
    | some trs =>
      rw [ht] at h
      rcases List.mem_filterMap.mp h with ⟨cells, hc, he⟩
      rcases cells with _ | ⟨c0, _ | ⟨c1, _ | ⟨c2, _ | ⟨c3, tl⟩⟩⟩⟩
      · exact absurd he (by simp [mkIndividualRow])
      · exact absurd he (by simp [mkIndividualRow])
      · exact absurd he (by simp [mkIndividualRow])
      · exact absurd he (by simp [mkIndividualRow])
      · simp only [mkIndividualRow, Option.some.injEq] at he
        subst he
        refine ⟨List.any_eq_true.mpr ⟨c0, ?_, tokProp c0⟩, tokNonneg c0⟩
        show c0 ∈ rankTokensIndividual doc.table ++ doc.teamBlocks.filterMap blockRankCell
        apply List.mem_append.mpr
        left
        rw [ht]
        show c0 ∈ (trs.drop 1).filterMap
          (fun cells => if 4 ≤ cells.length then cells.head? else none)
        apply List.mem_filterMap.mpr
        refine ⟨c0 :: c1 :: c2 :: c3 :: tl, hc, ?_⟩
        rw [if_pos (by simp [List.length_cons])]
        rfl
  · unfold parse_equipos at h
    rcases List.mem_flatMap.mp h with ⟨b, hb, hrec⟩
    rcases hrows2 : b.rows with _ | ⟨first, rest⟩
    · have hempty : parseEquipoBlock c d s num b = [] := by
        unfold parseEquipoBlock; rw [hrows2]
      rw [hempty] at hrec; cases hrec
    · rcases first with _ | ⟨c0, _ | ⟨c1, _ | ⟨c2, _ | ⟨c3, tl⟩⟩⟩⟩
      · have hempty : parseEquipoBlock c d s num b = [] := by
          unfold parseEquipoBlock; rw [hrows2]
        rw [hempty] at hrec; cases hrec
      · have hempty : parseEquipoBlock c d s num b = [] := by
          unfold parseEquipoBlock; rw [hrows2]
        rw [hempty] at hrec; cases hrec
      · have hempty : parseEquipoBlock c d s num b = [] := by
          unfold parseEquipoBlock; rw [hrows2]
        rw [hempty] at hrec; cases hrec
      · have hempty : parseEquipoBlock c d s num b = [] := by
          unfold parseEquipoBlock; rw [hrows2]
        rw [hempty] at hrec; cases hrec
      · obtain ⟨h1, h2, h3, h4⟩ :=
          mem_parseEquipoBlock_fields c d s num b c0 c1 c2 c3 tl rest hrows2 rec hrec
        refine ⟨List.any_eq_true.mpr ⟨c0, ?_, ?_⟩, ?_⟩
        · show c0 ∈ rankTokensIndividual doc.table ++ doc.teamBlocks.filterMap blockRankCell
          apply List.mem_append.mpr
          right
          apply List.mem_filterMap.mpr
          refine ⟨b, hb, ?_⟩
          unfold blockRankCell
          rw [hrows2]
          show (if 4 ≤ (c0 :: c1 :: c2 :: c3 :: tl).length
              then (c0 :: c1 :: c2 :: c3 :: tl).head? else none) = some c0
          rw [if_pos (by simp [List.length_cons])]
          rfl
        · simp only [h1]
          exact tokProp c0
        · rw [h1]
          exact tokNonneg c0

/-- C2 counterexample: an individual table row whose rank cell is the
all-digits token `"0"` produces a record with `puesto = 0` — `puesto` is
not always positive-or-absent. -/
theorem claim_C2_counterexample :
    (parse_individual
        { table := some [["Pos", "Nombre", "Empresa", "Tiempo"],
                         ["0", "Ana", "ACME", "7"]],
          teamBlocks := [], anchorHrefs := [] } "absoluta" "5K" "M").map
      (fun r => r.puesto) = [some 0] := by
  decide

/-- C2 witness: a record with rank token `"12"` satisfies the amended
invariant. -/
theorem claim_C2_puesto_amended_witness :
    ((rankTokens
        { table := some [["Pos", "Nombre", "Empresa", "Tiempo"],
                         ["12", "Ana", "ACME", "-"]],
          teamBlocks := [], anchorHrefs := [] }).any (fun tok =>
        (some (12 : ℤ) : Option ℤ) == rankToken tok
          && ((some (12 : ℤ) : Option ℤ).isNone == !pyIsDigit tok)) = true)
      ∧ (0 : ℤ) ≤ (some (12 : ℤ) : Option ℤ).getD 0 :=
  claim_C2_puesto_amended _ "absoluta" "5K" "M" 0
    { puesto := some 12, nombre := "Ana", empresa := "ACME", tiempo := "-",
      tiempo_segundos := none, categoria := "absoluta", distancia := "5K",
      sexo := "M", num_corredores := 1, nombre_equipo := none,
      tiempo_acumulado := none }
    (Or.inl (by decide))

/-! ## C4 — accumulated team time -/

/-- Spec §4.5 step 2, in plain natural arithmetic: milliseconds, converted
to whole seconds and formatted as zero-padded `HH:MM:SS`. -/
def specHMS (ms : ℕ) : String :=
  pad2 (ms / 1000 / 3600) ++ ":" ++ pad2 (ms / 1000 % 3600 / 60) ++ ":" ++
    pad2 (ms / 1000 % 60)

lemma floor_cast_div_cast (m k : ℕ) : ⌊(m : ℚ) / (k : ℚ)⌋₊ = m / k := by
  rw [Nat.floor_div_nat, Nat.floor_natCast]

lemma cast_split_mod (ms k : ℕ) :
    (ms : ℚ) = k * ((ms / k : ℕ) : ℚ) + ((ms % k : ℕ) : ℚ) := by
  exact_mod_cast congrArg (Nat.cast : ℕ → ℚ) (Nat.div_add_mod ms k).symm

/-- The source's float-and-truncate rendering agrees with the spec-side
natural-number rendering. -/
lemma msToHMS_eq_specHMS (ms : ℕ) : msToHMS ms = specHMS ms := by
  simp only [msToHMS, specHMS]
  have hh : ⌊(ms : ℚ) / 1000 / 3600⌋₊ = ms / 3600000 := by
    rw [div_div, show ((1000 : ℚ) * 3600) = ((3600000 : ℕ) : ℚ) by norm_num,
      floor_cast_div_cast]
  have hh60 : ⌊(ms : ℚ) / 1000 / 60⌋₊ = ms / 60000 := by
    rw [div_div, show ((1000 : ℚ) * 60) = ((60000 : ℕ) : ℚ) by norm_num,
      floor_cast_div_cast]
  have hrm : (ms : ℚ) / 1000 - 3600 * ((ms / 3600000 : ℕ) : ℚ) =
      ((ms % 3600000 : ℕ) : ℚ) / 1000 := by
    rw [show (ms : ℚ) = 3600000 * ((ms / 3600000 : ℕ) : ℚ) + ((ms % 3600000 : ℕ) : ℚ)
      from cast_split_mod ms 3600000]
    ring
  have hrs : (ms : ℚ) / 1000 - 60 * ((ms / 60000 : ℕ) : ℚ) =
      ((ms % 60000 : ℕ) : ℚ) / 1000 := by
    rw [show (ms : ℚ) = 60000 * ((ms / 60000 : ℕ) : ℚ) + ((ms % 60000 : ℕ) : ℚ)
      from cast_split_mod ms 60000]
    ring
  have hm2 : ⌊((ms % 3600000 : ℕ) : ℚ) / 1000 / 60⌋₊ = ms % 3600000 / 60000 := by
    rw [div_div, show ((1000 : ℚ) * 60) = ((60000 : ℕ) : ℚ) by norm_num,
      floor_cast_div_cast]
  have hs2 : ⌊((ms % 60000 : ℕ) : ℚ) / 1000⌋₊ = ms % 60000 / 1000 := by
    rw [show (1000 : ℚ) = ((1000 : ℕ) : ℚ) by norm_num, floor_cast_div_cast]
  have e1 : ms / 1000 / 3600 = ms / 3600000 := by
    rw [Nat.div_div_eq_div_mul]
  have e2 : ms / 1000 % 3600 / 60 = ms % 3600000 / 60000 := by
    rw [← Nat.mod_mul_right_div_self ms 1000 3600, Nat.div_div_eq_div_mul]
  have e3 : ms / 1000 % 60 = ms % 60000 / 1000 := by
    rw [← Nat.mod_mul_right_div_self ms 1000 60]
  rw [hh, hh60, hrm, hrs, hm2, hs2, e1, e2, e3]

/-- C4 (amended): in a team block whose first row has at least 4 cells,
when the marker yields a positive millisecond value every record of the
block carries that value converted to seconds and formatted as zero-padded
`HH:MM:SS` (whole seconds only); when the marker is absent every record's
`tiempo_acumulado` is absent; and — the amendment — when the marker is
present with the value 0, `tiempo_acumulado` is likewise absent (Python's
`if tiempo_acumulado_ms:` treats 0 like `None`).  In every case the block's
records are still emitted. -/
theorem claim_C4_tiempo_acumulado_amended (c d s : String) (num : ℕ)
    (b : TeamBlock) (c0 c1 c2 c3 : String) (tl : List String)
    (rest : List (List String)) (v : ℕ)
    (hrows : b.rows = (c0 :: c1 :: c2 :: c3 :: tl) :: rest) :
    0 < (parseEquipoBlock c d s num b).length
      ∧ (tiempoAcumMs c1 = some v → 0 < v →
          (parseEquipoBlock c d s num b).map (fun r => r.tiempo_acumulado)
            = List.replicate (parseEquipoBlock c d s num b).length
                (some (specHMS v)))
      ∧ (tiempoAcumMs c1 = none →
          (parseEquipoBlock c d s num b).map (fun r => r.tiempo_acumulado)
            = List.replicate (parseEquipoBlock c d s num b).length none)
      ∧ (tiempoAcumMs c1 = some 0 →
          (parseEquipoBlock c d s num b).map (fun r => r.tiempo_acumulado)
            = List.replicate (parseEquipoBlock c d s num b).length none) := by
  have heq := parseEquipoBlock_eq c d s num b c0 c1 c2 c3 tl rest hrows
  have hmap : ∀ x : Option String, tiempoAcumOut c1 = x →
      (parseEquipoBlock c d s num b).map (fun r => r.tiempo_acumulado)
        = List.replicate (parseEquipoBlock c d s num b).length x := by
    intro x hx
    apply List.eq_replicate_iff.mpr
    constructor
    · simp
    · intro o ho
      rcases List.mem_map.mp ho with ⟨rec, hrec, rfl⟩
      rw [(mem_parseEquipoBlock_fields c d s num b c0 c1 c2 c3 tl rest hrows
        rec hrec).2.1, hx]
  refine ⟨?_, ?_, ?_, ?_⟩
  · rw [heq]
    simp
  · intro hta hv
    apply hmap
    unfold tiempoAcumOut
    rw [hta]
    show (if v ≠ 0 then some (msToHMS v) else none) = some (specHMS v)
    rw [if_pos hv.ne', msToHMS_eq_specHMS]
  · intro hta
    apply hmap
    unfold tiempoAcumOut
    rw [hta]
  · intro hta
    apply hmap
    unfold tiempoAcumOut
    rw [hta]
    show (if (0 : ℕ) ≠ 0 then some (msToHMS 0) else none) = none
    simp

/-- C4 counterexample: a first-row team-info cell in which the marker
`"Tiempo Acumulado: <milliseconds>"` is present with the value 0.  The
claim requires `tiempo_acumulado = "00:00:00"`, but the code leaves it
absent. -/
theorem claim_C4_counterexample :
    containsSub markerChars ("ACME|Tiempo Acumulado: 0".toList) = true
      ∧ tiempoAcumMs "ACME|Tiempo Acumulado: 0" = some 0
      ∧ (parseEquipoBlock "equipos_2" "5K" "M" 2
            { dataEquipo := some "ACME",
              rows := [["1", "ACME|Tiempo Acumulado: 0", "Ana", "-"]] }).map
          (fun r => r.tiempo_acumulado) = [none] := by
  refine ⟨by decide, by decide, by decide⟩

/-- C4 witness: a block with marker value 3958521 ms; every record carries
`"01:05:58"`, and a block without the marker emits records with the field
absent. -/
theorem claim_C4_tiempo_acumulado_amended_witness :
    (parseEquipoBlock "equipos_2" "5K" "M" 2
        { dataEquipo := some "ACME",
          rows := [["1", "T|Tiempo Acumulado: 3958521", "Ana", "-"],
                   ["Luis", "-"]] }).map
      (fun r => r.tiempo_acumulado) = List.replicate 2 (some "01:05:58") :=
  (claim_C4_tiempo_acumulado_amended "equipos_2" "5K" "M" 2 _
      "1" "T|Tiempo Acumulado: 3958521" "Ana" "-" [] [["Luis", "-"]] 3958521
      rfl).2.1 (by decide) (by decide)

/-! ## C5 — team block record replication -/

/-- C5: a team block whose first row has at least 4 cells and whose `k`
remaining rows all have at least 2 cells yields exactly `k + 1` records,
all sharing the same `puesto`, `tiempo_acumulado`, `nombre_equipo` and
`num_corredores`, the latter equal to the target's team size. -/
theorem claim_C5_team_block_records (c d s : String) (num : ℕ) (b : TeamBlock)
    (c0 c1 c2 c3 : String) (tl : List String) (rest : List (List String))
    (hrows : b.rows = (c0 :: c1 :: c2 :: c3 :: tl) :: rest)
    (hall : ∀ r ∈ rest, 2 ≤ r.length) :
    (parseEquipoBlock c d s num b).length = rest.length + 1
      ∧ (parseEquipoBlock c d s num b).map
          (fun r => (r.puesto, r.tiempo_acumulado, r.nombre_equipo, r.num_corredores))
        = List.replicate (rest.length + 1)
            (rankToken c0, tiempoAcumOut c1, some (pyUpper (b.dataEquipo.getD "")),
              num) := by
  have heq := parseEquipoBlock_eq c d s num b c0 c1 c2 c3 tl rest hrows
  have hlen : (parseEquipoBlock c d s num b).length = rest.length + 1 := by
    rw [heq]
    simp [filterMap_teamMemberRow_length c d s num _ _ _ rest hall]
  refine ⟨hlen, ?_⟩
  apply List.eq_replicate_iff.mpr
  constructor
  · simp [hlen]
  · intro o ho
    rcases List.mem_map.mp ho with ⟨rec, hrec, rfl⟩
    obtain ⟨h1, h2, h3, h4⟩ :=
      mem_parseEquipoBlock_fields c d s num b c0 c1 c2 c3 tl rest hrows rec hrec
    rw [h1, h2, h3, h4]

/-- C5 witness: a block with a 4-cell first row and two 2-cell member rows
gives exactly 3 records sharing the block-level fields. -/
theorem claim_C5_team_block_records_witness :
    (parseEquipoBlock "equipos_3" "5K" "M" 3
        { dataEquipo := some "ACME",
          rows := [["1", "ACME", "Ana", "-"], ["Luis", "-"], ["Eva", "-"]] }).length
      = 2 + 1
      ∧ (parseEquipoBlock "equipos_3" "5K" "M" 3
            { dataEquipo := some "ACME",
              rows := [["1", "ACME", "Ana", "-"], ["Luis", "-"], ["Eva", "-"]] }).map
          (fun r => (r.puesto, r.tiempo_acumulado, r.nombre_equipo, r.num_corredores))
        = List.replicate (2 + 1) (some 1, none, some "ACME", 3) :=
  claim_C5_team_block_records "equipos_3" "5K" "M" 3 _ "1" "ACME" "Ana" "-" []
    [["Luis", "-"], ["Eva", "-"]] rfl (by decide)

/-! ## C1 — fetch retry behaviour -/

lemma backoffRun_attempts_le (oracle : ℕ → NetOutcome) (elapsedAt : ℕ → ℚ)
    (fuel : ℕ) :
    ∀ tries : ℕ, tries < 5 →
      (backoffRun oracle elapsedAt 5 60 tries fuel).2 ≤ 5 := by
  induction fuel with
  | zero =>
    intro tries h
    show tries + 1 ≤ 5
    omega
  | succ n ih =>
    intro tries h
    simp only [backoffRun]
    cases ho : oracle tries with
    | resp st bd =>
      show tries + 1 ≤ 5
      omega
    | timeout =>
      show (if tries + 1 = 5 ∨ (60 : ℚ) ≤ elapsedAt (tries + 1)
          then ((FetchResult.failed NetOutcome.timeout), tries + 1)
          else backoffRun oracle elapsedAt 5 60 (tries + 1) n).2 ≤ 5
      by_cases hc : tries + 1 = 5 ∨ (60 : ℚ) ≤ elapsedAt (tries + 1)
      · rw [if_pos hc]
        show tries + 1 ≤ 5
        omega
      · rw [if_neg hc]
        push_neg at hc
        exact ih (tries + 1) (by omega)
    | connError =>
      show (if tries + 1 = 5 ∨ (60 : ℚ) ≤ elapsedAt (tries + 1)
          then ((FetchResult.failed NetOutcome.connError), tries + 1)
          else backoffRun oracle elapsedAt 5 60 (tries + 1) n).2 ≤ 5
      by_cases hc : tries + 1 = 5 ∨ (60 : ℚ) ≤ elapsedAt (tries + 1)
      · rw [if_pos hc]
        show tries + 1 ≤ 5
        omega
      · rw [if_neg hc]
        push_neg at hc
        exact ih (tries + 1) (by omega)

lemma backoffRun_exc_step (oracle : ℕ → NetOutcome) (elapsedAt : ℕ → ℚ)
    (tries n : ℕ) (he : (oracle tries).isExc = true)
    (hne : ¬(tries + 1 = 5 ∨ (60 : ℚ) ≤ elapsedAt (tries + 1))) :
    backoffRun oracle elapsedAt 5 60 tries (n + 1) =
      backoffRun oracle elapsedAt 5 60 (tries + 1) n := by
  simp only [backoffRun]
  cases ho : oracle tries with
  | resp st bd => rw [ho] at he; simp [NetOutcome.isExc] at he
  | timeout =>
    show (if tries + 1 = 5 ∨ (60 : ℚ) ≤ elapsedAt (tries + 1)
        then ((FetchResult.failed NetOutcome.timeout), tries + 1)
        else backoffRun oracle elapsedAt 5 60 (tries + 1) n) = _
    rw [if_neg hne]
  | connError =>
    show (if tries + 1 = 5 ∨ (60 : ℚ) ≤ elapsedAt (tries + 1)
        then ((FetchResult.failed NetOutcome.connError), tries + 1)
        else backoffRun oracle elapsedAt 5 60 (tries + 1) n) = _
    rw [if_neg hne]

lemma backoffRun_exc_giveup (oracle : ℕ → NetOutcome) (elapsedAt : ℕ → ℚ)
    (tries n : ℕ) (he : (oracle tries).isExc = true)
    (hc : tries + 1 = 5 ∨ (60 : ℚ) ≤ elapsedAt (tries + 1)) :
    backoffRun oracle elapsedAt 5 60 tries (n + 1) =
      (.failed (oracle tries), tries + 1) := by
  simp only [backoffRun]
  cases ho : oracle tries with
  | resp st bd => rw [ho] at he; simp [NetOutcome.isExc] at he
  | timeout =>
    show (if tries + 1 = 5 ∨ (60 : ℚ) ≤ elapsedAt (tries + 1)
        then ((FetchResult.failed NetOutcome.timeout), tries + 1)
        else backoffRun oracle elapsedAt 5 60 (tries + 1) n) = _
    rw [if_pos hc]
  | connError =>
    show (if tries + 1 = 5 ∨ (60 : ℚ) ≤ elapsedAt (tries + 1)
        then ((FetchResult.failed NetOutcome.connError), tries + 1)
        else backoffRun oracle elapsedAt 5 60 (tries + 1) n) = _
    rw [if_pos hc]

/-- C1 (amended): the decorated `fetch` makes at most 5 attempts; any HTTP
response — 4xx and 5xx included — is returned as its body on the first
attempt, with zero retries and no failure; when every attempt raises one
of the two retried exception classes (timeout, client/connection error)
and the wall clock stays under 60 seconds, exactly 5 attempts are made and
the last exception is re-raised; and once 60 cumulative seconds have
elapsed, no further attempt is made. -/
theorem claim_C1_fetch_retry_amended (oracle : ℕ → NetOutcome)
    (elapsedAt : ℕ → ℚ) :
    (fetchModel oracle elapsedAt).2 ≤ 5
      ∧ (∀ st bd, oracle 0 = .resp st bd →
          fetchModel oracle elapsedAt = (.ok bd, 1))
      ∧ ((∀ k, (oracle k).isExc = true) → (∀ k, elapsedAt k < 60) →
          fetchModel oracle elapsedAt = (.failed (oracle 4), 5))
      ∧ ((∀ k, (oracle k).isExc = true) → 60 ≤ elapsedAt 1 →
          fetchModel oracle elapsedAt = (.failed (oracle 0), 1)) := by
  refine ⟨backoffRun_attempts_le oracle elapsedAt 5 0 (by omega), ?_, ?_, ?_⟩
  · intro st bd h0
    show backoffRun oracle elapsedAt 5 60 0 5 = (.ok bd, 1)
    simp only [backoffRun, h0]
  · intro hexc htime
    have hne : ∀ k : ℕ, k + 1 ≠ 5 →
        ¬(k + 1 = 5 ∨ (60 : ℚ) ≤ elapsedAt (k + 1)) := by
      intro k hk
      push_neg
      exact ⟨hk, lt_of_not_le fun hle => absurd (htime (k + 1)) (not_lt.mpr hle)⟩
    show backoffRun oracle elapsedAt 5 60 0 5 = (.failed (oracle 4), 5)
    rw [backoffRun_exc_step oracle elapsedAt 0 4 (hexc 0) (hne 0 (by omega)),
      backoffRun_exc_step oracle elapsedAt 1 3 (hexc 1) (hne 1 (by omega)),
      backoffRun_exc_step oracle elapsedAt 2 2 (hexc 2) (hne 2 (by omega)),
      backoffRun_exc_step oracle elapsedAt 3 1 (hexc 3) (hne 3 (by omega)),
      backoffRun_exc_giveup oracle elapsedAt 4 0 (hexc 4) (Or.inl rfl)]
  · intro hexc ht
    show backoffRun oracle elapsedAt 5 60 0 5 = (.failed (oracle 0), 1)
    rw [backoffRun_exc_giveup oracle elapsedAt 0 4 (hexc 0) (Or.inr ht)]

/-- C1 counterexample: a server that always answers 500, and one that
always answers 404.  The claim calls a 5xx transient (to be retried, then
`FetchExhausted`) and a 4xx an immediate failure; the code instead returns
the body successfully on the first attempt in both cases, because `fetch`
never raises for HTTP statuses. -/
theorem claim_C1_counterexample :
    fetchModel (fun _ => .resp 500 "server error") (fun _ => 0)
        = (.ok "server error", 1)
      ∧ fetchModel (fun _ => .resp 404 "not found") (fun _ => 0)
        = (.ok "not found", 1) := by
  constructor <;> rfl

/-- C1 witness: a connection that always times out under a fast clock —
exactly 5 attempts, then the timeout is re-raised. -/
theorem claim_C1_fetch_retry_amended_witness :
    fetchModel (fun _ => NetOutcome.timeout) (fun _ => 0)
      = (.failed NetOutcome.timeout, 5) :=
  (claim_C1_fetch_retry_amended (fun _ => NetOutcome.timeout) (fun _ => 0)).2.2.1
    (fun _ => rfl) (fun _ => by norm_num)
